import Mathlib

/-!
Shallow embedding of the MAC access-filter reconciliation engine of
`custom_components/huawei_mesh_router/client/huaweiapi.py`: the per-band
reconciler `_process_access_lists`, the orchestrators `apply_wlan_filter`,
`_set_wlan_filter_enabled` and `set_wlan_filter_mode`, and the name
resolver `get_access_list_item`.  Network effects are made explicit: the
fetched band states are parameters, the issued write commands are part of
the result, and the number of known-device list fetches is counted.
-/

/-- A JSON-like value as stored in a band-state field.  `null` stands both for a
JSON null and for a missing key (Python `dict.get` returns `None` in both cases). -/
inductive PyValue where
  | bool (b : Bool)
  | num (n : Int)
  | str (s : String)
  | null
deriving DecidableEq, Repr

/-- Modelled from the spec: the `FilterMode` enumeration {WHITELIST, BLACKLIST}
(its defining `classes` module is not among the sources). -/
inductive FilterMode where
  | WHITELIST
  | BLACKLIST
deriving DecidableEq, Repr

/-- Modelled from the spec: the numeric policy value carried by each `FilterMode`
member.  The spec treats the encoding as opaque, so two distinct constants are used. -/
def FilterMode.value : FilterMode → Int
  | .WHITELIST => 1
  | .BLACKLIST => 0

/-- Modelled from the spec: the `FilterAction` enumeration {ADD, REMOVE}
(its defining `classes` module is not among the sources). -/
inductive FilterAction where
  | ADD
  | REMOVE
deriving DecidableEq, Repr

/-- A caller-supplied filter mode.  Python is dynamically typed, so a caller can
pass a value outside the `FilterMode` enumeration; `invalid` stands for any such value. -/
inductive FilterModeArg where
  | valid (m : FilterMode)
  | invalid (tag : String)
deriving DecidableEq, Repr

/-- A caller-supplied filter action, possibly outside the `FilterAction` enumeration. -/
inductive FilterActionArg where
  | valid (a : FilterAction)
  | invalid (tag : String)
deriving DecidableEq, Repr

/-- An access-list entry `{MACAddress, HostName}` as carried in the wire payload. -/
structure AccessListEntry where
  MACAddress : String
  HostName : String
deriving DecidableEq, Repr

/-- Modelled from the spec: a known-device record `{mac, name}` returned by the
device-listing collaborator (`get_known_devices`); the `HuaweiClientDevice` class
itself is not among the sources. -/
structure HuaweiClientDevice where
  mac_address : String
  actual_name : String
deriving DecidableEq, Repr

/-- One band's fetched filter state, with the fields the core reads.  The two
lists and the enabled flag may be absent, which the code checks explicitly. -/
structure BandState where
  MACAddressControlEnabled : PyValue
  WMACAddresses : Option (List AccessListEntry)
  BMACAddresses : Option (List AccessListEntry)
  ID : String
  MacFilterPolicy : Int
  FrequencyBand : String
deriving DecidableEq, Repr

/-- One band's sub-configuration of the combined write command posted to the
filter endpoint. -/
structure BandConfig where
  MACAddressControlEnabled : PyValue
  WMacFilters : Option (List AccessListEntry)
  ID : String
  MacFilterPolicy : Int
  BMacFilters : Option (List AccessListEntry)
  FrequencyBand : String
deriving DecidableEq, Repr

/-- The combined write command `{config2g, config5g}` posted to the filter endpoint. -/
structure WriteCommand where
  config2g : BandConfig
  config5g : BandConfig
deriving DecidableEq, Repr

/-- Python truthiness of the optional `device_name` argument: `None` and the
empty string are both falsy (`if device_name:`). -/
def pyTruthy : Option String → Bool
  | none => false
  | some s => decide (s ≠ "")

/-- The inner `get_access_list_item` of `_process_access_lists`: build the entry
to append, resolving a name from the known devices when none was supplied. -/
def get_access_list_item (device_mac : String) (device_name : Option String)
    (known_devices : List HuaweiClientDevice) : AccessListEntry :=
  if pyTruthy device_name then
    { MACAddress := device_mac, HostName := device_name.getD "" }
  else
    match known_devices.find? (fun device => device.mac_address = device_mac) with
    | some device => { MACAddress := device_mac, HostName := device.actual_name }
    | none => { MACAddress := device_mac, HostName := "Unknown device " ++ device_mac }

/-- Number of known-device list fetches `get_access_list_item` performs: the
`get_known_devices` call is awaited only when no usable name was supplied. -/
def get_access_list_item_lookups (device_name : Option String) : Nat :=
  if pyTruthy device_name then 0 else 1

/-- The membership scan of `_process_access_lists`: the loop over the list that
breaks at the first index whose `MACAddress` equals the target MAC under Python
string equality. -/
def macFindIndex (device_mac : String) : List AccessListEntry → Option Nat
  | [] => none
  | entry :: rest =>
    if device_mac = entry.MACAddress then some 0
    else (macFindIndex device_mac rest).map (· + 1)

/-- Result of `_process_access_lists`: the `(need_action, whitelist, blacklist)`
triple, plus the number of known-device list fetches performed on the way. -/
structure ProcessOutcome where
  need_action : Option Bool
  whitelist : Option (List AccessListEntry)
  blacklist : Option (List AccessListEntry)
  known_device_lookups : Nat
deriving DecidableEq, Repr

/-- `_process_access_lists`: reconcile one band's whitelist/blacklist against the
desired `(mode, action, mac, name)` intent.  Returns the all-`none` triple when a
list is missing and raises (`Except.error`) on an unrecognized mode or action. -/
def process_access_lists (state : BandState) (filter_mode : FilterModeArg)
    (filter_action : FilterActionArg) (device_mac : String)
    (device_name : Option String) (known_devices : List HuaweiClientDevice) :
    Except String ProcessOutcome :=
  match state.WMACAddresses with
  | none => .ok ⟨none, none, none, 0⟩
  | some whitelist =>
  match state.BMACAddresses with
  | none => .ok ⟨none, none, none, 0⟩
  | some blacklist =>
  let whitelist_index := macFindIndex device_mac whitelist
  let blacklist_index := macFindIndex device_mac blacklist
  if filter_action = .valid .REMOVE then
    if filter_mode = .valid .BLACKLIST then
      match blacklist_index with
      | none => .ok ⟨some false, some whitelist, some blacklist, 0⟩
      | some i => .ok ⟨some true, some whitelist, some (blacklist.eraseIdx i), 0⟩
    else if filter_mode = .valid .WHITELIST then
      match whitelist_index with
      | none => .ok ⟨some false, some whitelist, some blacklist, 0⟩
      | some i => .ok ⟨some true, some (whitelist.eraseIdx i), some blacklist, 0⟩
    else
      .error "Unknown FilterMode"
  else if filter_action = .valid .ADD then
    if filter_mode = .valid .BLACKLIST then
      let item_to_add := match whitelist_index with
        | some i => whitelist[i]?
        | none => none
      let whitelist1 := match whitelist_index with
        | some i => whitelist.eraseIdx i
        | none => whitelist
      match blacklist_index with
      | some _ => .ok ⟨some false, some whitelist1, some blacklist, 0⟩
      | none =>
        match item_to_add with
        | some item => .ok ⟨some true, some whitelist1, some (blacklist ++ [item]), 0⟩
        | none =>
          .ok ⟨some true, some whitelist1,
            some (blacklist ++ [get_access_list_item device_mac device_name known_devices]),
            get_access_list_item_lookups device_name⟩
    else if filter_mode = .valid .WHITELIST then
      let item_to_add := match blacklist_index with
        | some i => blacklist[i]?
        | none => none
      let blacklist1 := match blacklist_index with
        | some i => blacklist.eraseIdx i
        | none => blacklist
      match whitelist_index with
      | some _ => .ok ⟨some false, some whitelist, some blacklist1, 0⟩
      | none =>
        match item_to_add with
        | some item => .ok ⟨some true, some (whitelist ++ [item]), some blacklist1, 0⟩
        | none =>
          .ok ⟨some true,
            some (whitelist ++ [get_access_list_item device_mac device_name known_devices]),
            some blacklist1,
            get_access_list_item_lookups device_name⟩
    else
      .error "Unknown FilterMode"
  else
    .error "Unknown FilterAction"

/-- The inner `verify_state` of `apply_wlan_filter`: the enabled flag must be a
boolean (`isinstance(enabled, bool)`) whose value is true. -/
def verify_state (target_state : BandState) : Bool :=
  match target_state.MACAddressControlEnabled with
  | .bool b => b
  | _ => false

/-- `apply_wlan_filter`: orchestrate the reconciler over both bands.  The two
fetched band states are parameters; the result pairs the returned boolean with
the list of write commands posted to the filter endpoint (empty or a singleton). -/
def apply_wlan_filter (state_2g state_5g : Option BandState)
    (filter_mode : FilterModeArg) (filter_action : FilterActionArg)
    (device_mac : String) (device_name : Option String)
    (known_devices : List HuaweiClientDevice) :
    Except String (Bool × List WriteCommand) :=
  match state_2g with
  | none => .ok (false, [])
  | some s2 =>
  match state_5g with
  | none => .ok (false, [])
  | some s5 =>
  if !(verify_state s2) || !(verify_state s5) then .ok (false, [])
  else
    match process_access_lists s2 filter_mode filter_action device_mac device_name
        known_devices with
    | .error e => .error e
    | .ok o2 =>
    match o2.need_action, o2.whitelist, o2.blacklist with
    | some need_action_2g, some whitelist_2g, some blacklist_2g =>
      match process_access_lists s5 filter_mode filter_action device_mac device_name
          known_devices with
      | .error e => .error e
      | .ok o5 =>
      match o5.need_action, o5.whitelist, o5.blacklist with
      | some need_action_5g, some whitelist_5g, some blacklist_5g =>
        if !need_action_2g && !need_action_5g then .ok (true, [])
        else
          .ok (true,
            [⟨⟨.bool true, some whitelist_2g, s2.ID, s2.MacFilterPolicy,
                some blacklist_2g, s2.FrequencyBand⟩,
              ⟨.bool true, some whitelist_5g, s5.ID, s5.MacFilterPolicy,
                some blacklist_5g, s5.FrequencyBand⟩⟩])
      | _, _, _ => .ok (false, [])
    | _, _, _ => .ok (false, [])

/-- `_set_wlan_filter_enabled`: enable or disable filtering on both bands;
returns the boolean result and the write commands issued. -/
def set_wlan_filter_enabled (value : Bool) (state_2g state_5g : Option BandState) :
    Bool × List WriteCommand :=
  match state_2g with
  | none => (false, [])
  | some s2 =>
  match state_5g with
  | none => (false, [])
  | some s5 =>
  let current_value_2g := match s2.MACAddressControlEnabled with
    | .bool b => b
    | _ => false
  let current_value_5g := match s5.MACAddressControlEnabled with
    | .bool b => b
    | _ => false
  let current_state := current_value_2g && current_value_5g
  if current_state = value then (true, [])
  else
    (true,
      [⟨⟨.bool value, s2.WMACAddresses, s2.ID, s2.MacFilterPolicy,
          s2.BMACAddresses, s2.FrequencyBand⟩,
        ⟨.bool value, s5.WMACAddresses, s5.ID, s5.MacFilterPolicy,
          s5.BMACAddresses, s5.FrequencyBand⟩⟩])

/-- `set_wlan_filter_mode`: switch the active policy on both bands; returns the
boolean result and the write commands issued. -/
def set_wlan_filter_mode (value : FilterMode) (state_2g state_5g : Option BandState) :
    Bool × List WriteCommand :=
  match state_2g with
  | none => (false, [])
  | some s2 =>
  match state_5g with
  | none => (false, [])
  | some s5 =>
  let current_state := s5.MacFilterPolicy
  if current_state = value.value then (true, [])
  else
    (true,
      [⟨⟨s2.MACAddressControlEnabled, s2.WMACAddresses, s2.ID, value.value,
          s2.BMACAddresses, s2.FrequencyBand⟩,
        ⟨s5.MACAddressControlEnabled, s5.WMACAddresses, s5.ID, value.value,
          s5.BMACAddresses, s5.FrequencyBand⟩⟩])

/-- MAC-address column of an access list, the identity key of its entries. -/
def macs (l : List AccessListEntry) : List String :=
  l.map AccessListEntry.MACAddress

theorem macFindIndex_eq_none_iff (device_mac : String) (l : List AccessListEntry) :
    macFindIndex device_mac l = none ↔ ∀ e ∈ l, device_mac ≠ e.MACAddress := by
  induction l with
  | nil => simp [macFindIndex]
  | cons a rest ih =>
    by_cases h : device_mac = a.MACAddress
    · simp [macFindIndex, h]
    · simp only [macFindIndex, if_neg h, Option.map_eq_none', List.mem_cons]
      constructor
      · intro hn e he
        rcases he with he | he
        · exact he ▸ h
        · exact (ih.mp hn) e he
      · intro hall
        exact ih.mpr fun e he => hall e (Or.inr he)

theorem not_mem_macs_iff (device_mac : String) (l : List AccessListEntry) :
    device_mac ∉ macs l ↔ ∀ e ∈ l, device_mac ≠ e.MACAddress := by
  simp only [macs, List.mem_map, not_exists]
  constructor
  · intro h e he heq
    exact h e ⟨he, heq.symm⟩
  · rintro h e ⟨he, heq⟩
    exact h e he heq.symm

theorem macFindIndex_some_getElem (device_mac : String) (l : List AccessListEntry)
    (i : Nat) (h : macFindIndex device_mac l = some i) :
    ∃ e, l[i]? = some e ∧ e.MACAddress = device_mac := by
  induction l generalizing i with
  | nil => simp [macFindIndex] at h
  | cons a rest ih =>
    by_cases hm : device_mac = a.MACAddress
    · simp only [macFindIndex, if_pos hm] at h
      cases h
      exact ⟨a, by simp, hm.symm⟩
    · simp only [macFindIndex, if_neg hm, Option.map_eq_some'] at h
      obtain ⟨i', hi', rfl⟩ := h
      obtain ⟨e, he, hmac⟩ := ih i' hi'
      exact ⟨e, by simpa using he, hmac⟩

theorem macFindIndex_first (device_mac : String) (l : List AccessListEntry)
    (i : Nat) (h : macFindIndex device_mac l = some i) :
    ∀ j, j < i → ∀ e, l[j]? = some e → e.MACAddress ≠ device_mac := by
  induction l generalizing i with
  | nil => simp [macFindIndex] at h
  | cons a rest ih =>
    by_cases hm : device_mac = a.MACAddress
    · simp only [macFindIndex, if_pos hm] at h
      cases h
      intro j hj
      exact absurd hj (Nat.not_lt_zero j)
    · simp only [macFindIndex, if_neg hm, Option.map_eq_some'] at h
      obtain ⟨i', hi', rfl⟩ := h
      intro j hj e he
      cases j with
      | zero =>
        simp only [List.getElem?_cons_zero, Option.some.injEq] at he
        exact he ▸ fun hc => hm hc.symm
      | succ j' =>
        exact ih i' hi' j' (by omega) e (by simpa using he)

theorem macFindIndex_some_lt (device_mac : String) (l : List AccessListEntry)
    (i : Nat) (h : macFindIndex device_mac l = some i) : i < l.length := by
  obtain ⟨e, he, -⟩ := macFindIndex_some_getElem device_mac l i h
  exact (List.getElem?_eq_some_iff.mp he).1

theorem macs_eraseIdx (l : List AccessListEntry) (i : Nat) :
    macs (l.eraseIdx i) = (macs l).eraseIdx i := by
  induction l generalizing i with
  | nil => simp [macs]
  | cons a rest ih =>
    cases i with
    | zero => simp [macs]
    | succ i' =>
      simp only [List.eraseIdx_cons_succ, macs, List.map_cons]
      exact congrArg _ (ih i')

theorem nodup_macs_eraseIdx {l : List AccessListEntry} {i : Nat}
    (h : (macs l).Nodup) : (macs (l.eraseIdx i)).Nodup := by
  rw [macs_eraseIdx]
  exact List.Nodup.sublist (List.eraseIdx_sublist (macs l) i) h

theorem mem_macs_eraseIdx {m : String} {l : List AccessListEntry} {i : Nat}
    (h : m ∈ macs (l.eraseIdx i)) : m ∈ macs l := by
  rw [macs_eraseIdx] at h
  exact List.Sublist.subset (List.eraseIdx_sublist (macs l) i) h

theorem not_mem_macs_eraseIdx_found {m : String} {l : List AccessListEntry} {i : Nat}
    (hnd : (macs l).Nodup) (h : macFindIndex m l = some i) :
    m ∉ macs (l.eraseIdx i) := by
  induction l generalizing i with
  | nil => simp [macFindIndex] at h
  | cons a rest ih =>
    simp only [macs, List.map_cons, List.nodup_cons] at hnd
    by_cases hm : m = a.MACAddress
    · simp only [macFindIndex, if_pos hm] at h
      cases h
      simpa [macs, hm] using hnd.1
    · simp only [macFindIndex, if_neg hm, Option.map_eq_some'] at h
      obtain ⟨i', hi', rfl⟩ := h
      simp only [List.eraseIdx_cons_succ, macs, List.map_cons, List.mem_cons]
      rintro (hc | hc)
      · exact hm hc
      · exact ih hnd.2 hi' hc

theorem nodup_macs_append {l : List AccessListEntry} {e : AccessListEntry}
    (hnd : (macs l).Nodup) (hnotmem : e.MACAddress ∉ macs l) :
    (macs (l ++ [e])).Nodup := by
  simp only [macs, List.map_append, List.map_cons, List.map_nil, List.nodup_append,
    List.disjoint_singleton]
  exact ⟨hnd, List.nodup_singleton _, hnotmem⟩

theorem mem_macs_append {m : String} {l : List AccessListEntry} {e : AccessListEntry}
    (h : m ∈ macs (l ++ [e])) : m ∈ macs l ∨ m = e.MACAddress := by
  simpa [macs] using h

/-- C1: for every band state with both lists present, `_process_access_lists`
implements the truth table exactly.  On ADD under a mode the target MAC is
appended to that mode's list unless already present there; an entry present in
the other list is moved (its stored name kept) rather than re-synthesized, and
otherwise a fresh entry is created.  On REMOVE under a mode the MAC is removed
from that mode's list if present and the other list is left untouched.  In
particular the spec's scenario (whitelist empty, blacklist holding the "phone"
entry, ADD under WHITELIST) yields need_action true, the entry moved to the
whitelist and an empty blacklist. -/
theorem C1_truth_table
    (en : PyValue) (id freq : String) (pol : Int)
    (wl bl : List AccessListEntry) (mac : String) (name : Option String)
    (known : List HuaweiClientDevice) :
    (∀ j e, macFindIndex mac wl = none → macFindIndex mac bl = some j →
      bl[j]? = some e →
      process_access_lists ⟨en, some wl, some bl, id, pol, freq⟩
          (.valid .WHITELIST) (.valid .ADD) mac name known =
        .ok ⟨some true, some (wl ++ [e]), some (bl.eraseIdx j), 0⟩) ∧
    (∀ i e, macFindIndex mac bl = none → macFindIndex mac wl = some i →
      wl[i]? = some e →
      process_access_lists ⟨en, some wl, some bl, id, pol, freq⟩
          (.valid .BLACKLIST) (.valid .ADD) mac name known =
        .ok ⟨some true, some (wl.eraseIdx i), some (bl ++ [e]), 0⟩) ∧
    (macFindIndex mac wl = none → macFindIndex mac bl = none →
      process_access_lists ⟨en, some wl, some bl, id, pol, freq⟩
          (.valid .WHITELIST) (.valid .ADD) mac name known =
        .ok ⟨some true, some (wl ++ [get_access_list_item mac name known]), some bl,
          get_access_list_item_lookups name⟩) ∧
    (macFindIndex mac wl = none → macFindIndex mac bl = none →
      process_access_lists ⟨en, some wl, some bl, id, pol, freq⟩
          (.valid .BLACKLIST) (.valid .ADD) mac name known =
        .ok ⟨some true, some wl, some (bl ++ [get_access_list_item mac name known]),
          get_access_list_item_lookups name⟩) ∧
    (∀ i, macFindIndex mac wl = some i →
      ∃ bl1, process_access_lists ⟨en, some wl, some bl, id, pol, freq⟩
          (.valid .WHITELIST) (.valid .ADD) mac name known =
        .ok ⟨some false, some wl, some bl1, 0⟩) ∧
    (∀ j, macFindIndex mac bl = some j →
      ∃ wl1, process_access_lists ⟨en, some wl, some bl, id, pol, freq⟩
          (.valid .BLACKLIST) (.valid .ADD) mac name known =
        .ok ⟨some false, some wl1, some bl, 0⟩) ∧
    (∀ i, macFindIndex mac wl = some i →
      process_access_lists ⟨en, some wl, some bl, id, pol, freq⟩
          (.valid .WHITELIST) (.valid .REMOVE) mac name known =
        .ok ⟨some true, some (wl.eraseIdx i), some bl, 0⟩) ∧
    (macFindIndex mac wl = none →
      process_access_lists ⟨en, some wl, some bl, id, pol, freq⟩
          (.valid .WHITELIST) (.valid .REMOVE) mac name known =
        .ok ⟨some false, some wl, some bl, 0⟩) ∧
    (∀ j, macFindIndex mac bl = some j →
      process_access_lists ⟨en, some wl, some bl, id, pol, freq⟩
          (.valid .BLACKLIST) (.valid .REMOVE) mac name known =
        .ok ⟨some true, some wl, some (bl.eraseIdx j), 0⟩) ∧
    (macFindIndex mac bl = none →
      process_access_lists ⟨en, some wl, some bl, id, pol, freq⟩
          (.valid .BLACKLIST) (.valid .REMOVE) mac name known =
        .ok ⟨some false, some wl, some bl, 0⟩) ∧
    process_access_lists
        ⟨.bool true, some [], some [⟨"AA:BB:CC:DD:EE:FF", "phone"⟩], "id", 1, "2.4GHz"⟩
        (.valid .WHITELIST) (.valid .ADD) "AA:BB:CC:DD:EE:FF" none [] =
      .ok ⟨some true, some [⟨"AA:BB:CC:DD:EE:FF", "phone"⟩], some [], 0⟩ := by
  refine ⟨?_, ?_, ?_, ?_, ?_, ?_, ?_, ?_, ?_, ?_, ?_⟩
  · intro j e hwl hbl hget
    simp [process_access_lists, hwl, hbl, hget]
  · intro i e hbl hwl hget
    simp [process_access_lists, hwl, hbl, hget]
  · intro hwl hbl
    simp [process_access_lists, hwl, hbl]
  · intro hwl hbl
    simp [process_access_lists, hwl, hbl]
  · intro i hwl
    cases hbl : macFindIndex mac bl with
    | none => exact ⟨bl, by simp [process_access_lists, hwl, hbl]⟩
    | some j => exact ⟨bl.eraseIdx j, by simp [process_access_lists, hwl, hbl]⟩
  · intro j hbl
    cases hwl : macFindIndex mac wl with
    | none => exact ⟨wl, by simp [process_access_lists, hwl, hbl]⟩
    | some i => exact ⟨wl.eraseIdx i, by simp [process_access_lists, hwl, hbl]⟩
  · intro i hwl
    simp [process_access_lists, hwl]
  · intro hwl
    simp [process_access_lists, hwl]
  · intro j hbl
    simp [process_access_lists, hbl]
  · intro hbl
    simp [process_access_lists, hbl]
  · rfl

/-- Witness for C1: the spec's scenario, obtained by applying the move case of
`C1_truth_table` at the concrete input. -/
theorem C1_truth_table_witness :
    process_access_lists
        ⟨.bool true, some [], some [⟨"AA:BB:CC:DD:EE:FF", "phone"⟩], "id", 1, "2.4GHz"⟩
        (.valid .WHITELIST) (.valid .ADD) "AA:BB:CC:DD:EE:FF" none [] =
      .ok ⟨some true, some ([] ++ [⟨"AA:BB:CC:DD:EE:FF", "phone"⟩]),
        some (([⟨"AA:BB:CC:DD:EE:FF", "phone"⟩] : List AccessListEntry).eraseIdx 0), 0⟩ :=
  (C1_truth_table (.bool true) "id" "2.4GHz" 1 [] [⟨"AA:BB:CC:DD:EE:FF", "phone"⟩]
    "AA:BB:CC:DD:EE:FF" none []).1 0 ⟨"AA:BB:CC:DD:EE:FF", "phone"⟩ rfl (by decide) rfl

/-- Counterexample to C2: the membership scan is case-sensitive.  A whitelist
entry whose `MACAddress` differs from the target MAC only in letter case is not
found, and a REMOVE under WHITELIST consequently reports `need_action = false`
and leaves the list unchanged, contradicting the claimed case-insensitive match. -/
theorem C2_counterexample :
    macFindIndex "AA:BB:CC:DD:EE:FF" [⟨"aa:bb:cc:dd:ee:ff", "tv"⟩] = none ∧
    process_access_lists
        ⟨.bool true, some [⟨"aa:bb:cc:dd:ee:ff", "tv"⟩], some [], "id", 1, "2.4GHz"⟩
        (.valid .WHITELIST) (.valid .REMOVE) "AA:BB:CC:DD:EE:FF" none [] =
      .ok ⟨some false, some [⟨"aa:bb:cc:dd:ee:ff", "tv"⟩], some [], 0⟩ := by
  exact ⟨by decide, rfl⟩

/-- C2 amended: membership lookup of the target MAC matches by exact,
case-sensitive string equality on `MACAddress` (not case-insensitively), and
when a list contains several entries for the same MAC the first occurrence
(lowest index) is the one found. -/
theorem C2_amended_exact_first_match (mac : String) (l : List AccessListEntry) :
    (macFindIndex mac l = none ↔ ∀ e ∈ l, mac ≠ e.MACAddress) ∧
    (∀ i, macFindIndex mac l = some i →
      (∃ e, l[i]? = some e ∧ e.MACAddress = mac) ∧
      ∀ j, j < i → ∀ e, l[j]? = some e → e.MACAddress ≠ mac) :=
  ⟨macFindIndex_eq_none_iff mac l,
    fun i h => ⟨macFindIndex_some_getElem mac l i h, macFindIndex_first mac l i h⟩⟩

/-- Witness for C2 amended: on a list with two entries for the same MAC the scan
returns the lowest index, whose entry carries the target MAC, while the entry
before it does not match. -/
theorem C2_amended_exact_first_match_witness :
    (∃ e, ([⟨"BB", "x"⟩, ⟨"AA", "y"⟩, ⟨"AA", "z"⟩] : List AccessListEntry)[1]? = some e ∧
      e.MACAddress = "AA") ∧
    ∀ j, j < 1 → ∀ e,
      ([⟨"BB", "x"⟩, ⟨"AA", "y"⟩, ⟨"AA", "z"⟩] : List AccessListEntry)[j]? = some e →
      e.MACAddress ≠ "AA" :=
  (C2_amended_exact_first_match "AA" [⟨"BB", "x"⟩, ⟨"AA", "y"⟩, ⟨"AA", "z"⟩]).2 1 (by decide)

theorem process_shape (en : PyValue) (id freq : String) (pol : Int)
    (wl bl : List AccessListEntry) (marg : FilterModeArg) (aarg : FilterActionArg)
    (mac : String) (name : Option String) (known : List HuaweiClientDevice) :
    (∃ e, process_access_lists ⟨en, some wl, some bl, id, pol, freq⟩ marg aarg mac
      name known = .error e) ∨
    (∃ b w1 b1 k, process_access_lists ⟨en, some wl, some bl, id, pol, freq⟩ marg aarg
      mac name known = .ok ⟨some b, some w1, some b1, k⟩) := by
  simp only [process_access_lists]
  repeat' split
  all_goals first
    | exact Or.inl ⟨_, rfl⟩
    | exact Or.inr ⟨_, _, _, _, rfl⟩

/-- C3: `apply_wlan_filter` issues no write and returns false whenever its
preconditions fail: an absent band state, an enabled flag that is not the
boolean true, or a reconciliation returning the null triple (which happens
exactly when the whitelist or blacklist field is absent) all yield the result
`(false, no writes)`. -/
theorem C3_apply_gating
    (marg : FilterModeArg) (aarg : FilterActionArg) (mac : String)
    (name : Option String) (known : List HuaweiClientDevice) :
    (∀ s5, apply_wlan_filter none s5 marg aarg mac name known = .ok (false, [])) ∧
    (∀ s2, apply_wlan_filter s2 none marg aarg mac name known = .ok (false, [])) ∧
    (∀ s2 s5, verify_state s2 = false ∨ verify_state s5 = false →
      apply_wlan_filter (some s2) (some s5) marg aarg mac name known =
        .ok (false, [])) ∧
    (∀ s, process_access_lists s marg aarg mac name known = .ok ⟨none, none, none, 0⟩ ↔
      s.WMACAddresses = none ∨ s.BMACAddresses = none) ∧
    (∀ s2 s5, verify_state s2 = true → verify_state s5 = true →
      process_access_lists s2 marg aarg mac name known = .ok ⟨none, none, none, 0⟩ →
      apply_wlan_filter (some s2) (some s5) marg aarg mac name known =
        .ok (false, [])) ∧
    (∀ s2 s5 na2 wl2 bl2 k2, verify_state s2 = true → verify_state s5 = true →
      process_access_lists s2 marg aarg mac name known =
        .ok ⟨some na2, some wl2, some bl2, k2⟩ →
      process_access_lists s5 marg aarg mac name known = .ok ⟨none, none, none, 0⟩ →
      apply_wlan_filter (some s2) (some s5) marg aarg mac name known =
        .ok (false, [])) := by
  refine ⟨fun s5 => rfl, fun s2 => ?_, ?_, ?_, ?_, ?_⟩
  · cases s2 <;> rfl
  · intro s2 s5 h
    rcases h with h | h <;> simp [apply_wlan_filter, h]
  · intro s
    obtain ⟨en, w, b, id, pol, freq⟩ := s
    cases w with
    | none => simp [process_access_lists]
    | some wl =>
      cases b with
      | none => simp [process_access_lists]
      | some bl =>
        simp only
        constructor
        · intro h
          rcases process_shape en id freq pol wl bl marg aarg mac name known with
            ⟨e, he⟩ | ⟨bb, w1, b1, k, hk⟩
          · rw [he] at h
            exact absurd h (by simp)
          · rw [hk] at h
            simp at h
        · intro h
          rcases h with h | h <;> simp at h
  · intro s2 s5 hv2 hv5 hp
    simp [apply_wlan_filter, hv2, hv5, hp]
  · intro s2 s5 na2 wl2 bl2 k2 hv2 hv5 hp2 hp5
    simp [apply_wlan_filter, hv2, hv5, hp2, hp5]

/-- Witness for C3: a band state with a null enabled flag fails verification and
the operation reports false with no write. -/
theorem C3_apply_gating_witness :
    verify_state ⟨.null, some [], some [], "id", 1, "2.4GHz"⟩ = false ∧
    apply_wlan_filter (some ⟨.null, some [], some [], "id", 1, "2.4GHz"⟩)
        (some ⟨.bool true, some [], some [], "id", 1, "5GHz"⟩)
        (.valid .WHITELIST) (.valid .ADD) "AA" none [] = .ok (false, []) :=
  ⟨rfl, (C3_apply_gating (.valid .WHITELIST) (.valid .ADD) "AA" none []).2.2.1
    ⟨.null, some [], some [], "id", 1, "2.4GHz"⟩
    ⟨.bool true, some [], some [], "id", 1, "5GHz"⟩ (Or.inl rfl)⟩

/-- C4: reapplying a satisfied intent is a no-op.  For every band state with
both lists present, an ADD whose MAC is already in the target list and a REMOVE
whose MAC is absent from the target list each return `need_action = false`
without raising, and `apply_wlan_filter` returns true with zero writes when
neither band needs action. -/
theorem C4_idempotent_noop
    (en : PyValue) (id freq : String) (pol : Int)
    (wl bl : List AccessListEntry) (mac : String) (name : Option String)
    (known : List HuaweiClientDevice) :
    (∀ i, macFindIndex mac wl = some i →
      ∃ wl1 bl1, process_access_lists ⟨en, some wl, some bl, id, pol, freq⟩
          (.valid .WHITELIST) (.valid .ADD) mac name known =
        .ok ⟨some false, some wl1, some bl1, 0⟩) ∧
    (∀ j, macFindIndex mac bl = some j →
      ∃ wl1 bl1, process_access_lists ⟨en, some wl, some bl, id, pol, freq⟩
          (.valid .BLACKLIST) (.valid .ADD) mac name known =
        .ok ⟨some false, some wl1, some bl1, 0⟩) ∧
    (macFindIndex mac wl = none →
      process_access_lists ⟨en, some wl, some bl, id, pol, freq⟩
          (.valid .WHITELIST) (.valid .REMOVE) mac name known =
        .ok ⟨some false, some wl, some bl, 0⟩) ∧
    (macFindIndex mac bl = none →
      process_access_lists ⟨en, some wl, some bl, id, pol, freq⟩
          (.valid .BLACKLIST) (.valid .REMOVE) mac name known =
        .ok ⟨some false, some wl, some bl, 0⟩) ∧
    (∀ (s2 s5 : BandState) (marg : FilterModeArg) (aarg : FilterActionArg)
        (wl2 bl2 wl5 bl5 : List AccessListEntry) (k2 k5 : Nat),
      verify_state s2 = true → verify_state s5 = true →
      process_access_lists s2 marg aarg mac name known =
        .ok ⟨some false, some wl2, some bl2, k2⟩ →
      process_access_lists s5 marg aarg mac name known =
        .ok ⟨some false, some wl5, some bl5, k5⟩ →
      apply_wlan_filter (some s2) (some s5) marg aarg mac name known =
        .ok (true, [])) := by
  refine ⟨?_, ?_, ?_, ?_, ?_⟩
  · intro i hwl
    cases hbl : macFindIndex mac bl with
    | none => exact ⟨wl, bl, by simp [process_access_lists, hwl, hbl]⟩
    | some j => exact ⟨wl, bl.eraseIdx j, by simp [process_access_lists, hwl, hbl]⟩
  · intro j hbl
    cases hwl : macFindIndex mac wl with
    | none => exact ⟨wl, bl, by simp [process_access_lists, hwl, hbl]⟩
    | some i => exact ⟨wl.eraseIdx i, bl, by simp [process_access_lists, hwl, hbl]⟩
  · intro hwl
    simp [process_access_lists, hwl]
  · intro hbl
    simp [process_access_lists, hbl]
  · intro s2 s5 marg aarg wl2 bl2 wl5 bl5 k2 k5 hv2 hv5 hp2 hp5
    simp [apply_wlan_filter, hv2, hv5, hp2, hp5]

/-- Witness for C4: an ADD of a MAC already whitelisted reports no action needed,
and the orchestrator then returns true without writing. -/
theorem C4_idempotent_noop_witness :
    (∃ wl1 bl1, process_access_lists
        ⟨.bool true, some [⟨"AA", "x"⟩], some [], "id", 1, "2.4GHz"⟩
        (.valid .WHITELIST) (.valid .ADD) "AA" none [] =
      .ok ⟨some false, some wl1, some bl1, 0⟩) ∧
    apply_wlan_filter (some ⟨.bool true, some [⟨"AA", "x"⟩], some [], "id", 1, "2.4GHz"⟩)
        (some ⟨.bool true, some [⟨"AA", "x"⟩], some [], "id", 1, "5GHz"⟩)
        (.valid .WHITELIST) (.valid .ADD) "AA" none [] = .ok (true, []) :=
  ⟨(C4_idempotent_noop (.bool true) "id" "2.4GHz" 1 [⟨"AA", "x"⟩] [] "AA" none []).1 0
      (by decide),
    (C4_idempotent_noop (.bool true) "id" "2.4GHz" 1 [⟨"AA", "x"⟩] [] "AA" none []).2.2.2.2
      ⟨.bool true, some [⟨"AA", "x"⟩], some [], "id", 1, "2.4GHz"⟩
      ⟨.bool true, some [⟨"AA", "x"⟩], some [], "id", 1, "5GHz"⟩
      (.valid .WHITELIST) (.valid .ADD) [⟨"AA", "x"⟩] [] [⟨"AA", "x"⟩] [] 0 0
      rfl rfl rfl rfl⟩

theorem get_access_list_item_mac (device_mac : String) (device_name : Option String)
    (known_devices : List HuaweiClientDevice) :
    (get_access_list_item device_mac device_name known_devices).MACAddress =
      device_mac := by
  unfold get_access_list_item
  split
  · rfl
  · split <;> rfl

/-- Counterexample to C5: the reconciler does not repair an inconsistent input.
With the MAC "AA" present in both fetched lists, a REMOVE of an unrelated MAC
under WHITELIST returns both lists unchanged, so "AA" still appears in both
returned lists, contradicting the claim quantified over every input band state. -/
theorem C5_counterexample :
    process_access_lists
        ⟨.bool true, some [⟨"AA", "x"⟩], some [⟨"AA", "y"⟩], "id", 1, "2.4GHz"⟩
        (.valid .WHITELIST) (.valid .REMOVE) "BB" none [] =
      .ok ⟨some false, some [⟨"AA", "x"⟩], some [⟨"AA", "y"⟩], 0⟩ ∧
    "AA" ∈ macs [⟨"AA", "x"⟩] ∧ "AA" ∈ macs [⟨"AA", "y"⟩] := by
  refine ⟨rfl, ?_, ?_⟩ <;> simp [macs]

/-- C5 amended: the reconciler preserves the list invariants rather than
establishing them.  If the input whitelist and blacklist each contain at most
one entry per MAC and share no MAC, then the returned lists do too (entries are
moved, not duplicated); on inputs already violating the invariant the violation
can persist (see the counterexample). -/
theorem C5_amended_invariant_preserved
    (en : PyValue) (id freq : String) (pol : Int)
    (wl bl : List AccessListEntry) (marg : FilterModeArg) (aarg : FilterActionArg)
    (mac : String) (name : Option String) (known : List HuaweiClientDevice)
    (hwl : (macs wl).Nodup) (hbl : (macs bl).Nodup)
    (hdisj : ∀ m, m ∈ macs wl → m ∉ macs bl)
    (na : Option Bool) (k : Nat) (wl1 bl1 : List AccessListEntry)
    (ho : process_access_lists ⟨en, some wl, some bl, id, pol, freq⟩ marg aarg mac
      name known = .ok ⟨na, some wl1, some bl1, k⟩) :
    (macs wl1).Nodup ∧ (macs bl1).Nodup ∧ ∀ m, m ∈ macs wl1 → m ∉ macs bl1 := by
  cases aarg with
  | invalid tag => simp [process_access_lists] at ho
  | valid a =>
    cases a with
    | REMOVE =>
      cases marg with
      | invalid tag => simp [process_access_lists] at ho
      | valid m =>
        cases m with
        | BLACKLIST =>
          cases hfb : macFindIndex mac bl with
          | none =>
            simp [process_access_lists, hfb] at ho
            obtain ⟨-, h2, h3, -⟩ := ho
            subst h2; subst h3
            exact ⟨hwl, hbl, hdisj⟩
          | some i =>
            simp [process_access_lists, hfb] at ho
            obtain ⟨-, h2, h3, -⟩ := ho
            subst h2; subst h3
            exact ⟨hwl, nodup_macs_eraseIdx hbl,
              fun m hm hc => hdisj m hm (mem_macs_eraseIdx hc)⟩
        | WHITELIST =>
          cases hfw : macFindIndex mac wl with
          | none =>
            simp [process_access_lists, hfw] at ho
            obtain ⟨-, h2, h3, -⟩ := ho
            subst h2; subst h3
            exact ⟨hwl, hbl, hdisj⟩
          | some i =>
            simp [process_access_lists, hfw] at ho
            obtain ⟨-, h2, h3, -⟩ := ho
            subst h2; subst h3
            exact ⟨nodup_macs_eraseIdx hwl, hbl,
              fun m hm hc => hdisj m (mem_macs_eraseIdx hm) hc⟩
    | ADD =>
      cases marg with
      | invalid tag => simp [process_access_lists] at ho
      | valid m =>
        cases m with
        | BLACKLIST =>
          cases hfb : macFindIndex mac bl with
          | some j =>
            cases hfw : macFindIndex mac wl with
            | none =>
              simp [process_access_lists, hfb, hfw] at ho
              obtain ⟨-, h2, h3, -⟩ := ho
              subst h2; subst h3
              exact ⟨hwl, hbl, hdisj⟩
            | some i =>
              simp [process_access_lists, hfb, hfw] at ho
              obtain ⟨-, h2, h3, -⟩ := ho
              subst h2; subst h3
              exact ⟨nodup_macs_eraseIdx hwl, hbl,
                fun m hm hc => hdisj m (mem_macs_eraseIdx hm) hc⟩
          | none =>
            have hmacbl : mac ∉ macs bl :=
              (not_mem_macs_iff mac bl).mpr ((macFindIndex_eq_none_iff mac bl).mp hfb)
            cases hfw : macFindIndex mac wl with
            | some i =>
              obtain ⟨e, he, hemac⟩ := macFindIndex_some_getElem mac wl i hfw
              simp [process_access_lists, hfb, hfw, he] at ho
              obtain ⟨-, h2, h3, -⟩ := ho
              subst h2; subst h3
              refine ⟨nodup_macs_eraseIdx hwl,
                nodup_macs_append hbl (hemac ▸ hmacbl), ?_⟩
              intro m hm hc
              rcases mem_macs_append hc with hc | hc
              · exact hdisj m (mem_macs_eraseIdx hm) hc
              · rw [hc, hemac] at hm
                exact not_mem_macs_eraseIdx_found hwl hfw hm
            | none =>
              have hmacwl : mac ∉ macs wl :=
                (not_mem_macs_iff mac wl).mpr ((macFindIndex_eq_none_iff mac wl).mp hfw)
              simp [process_access_lists, hfb, hfw] at ho
              obtain ⟨-, h2, h3, -⟩ := ho
              subst h2; subst h3
              refine ⟨hwl,
                nodup_macs_append hbl
                  (by rw [get_access_list_item_mac]; exact hmacbl), ?_⟩
              intro m hm hc
              rcases mem_macs_append hc with hc | hc
              · exact hdisj m hm hc
              · rw [hc, get_access_list_item_mac mac name known] at hm
                exact hmacwl hm
        | WHITELIST =>
          cases hfw : macFindIndex mac wl with
          | some i =>
            cases hfb : macFindIndex mac bl with
            | none =>
              simp [process_access_lists, hfb, hfw] at ho
              obtain ⟨-, h2, h3, -⟩ := ho
              subst h2; subst h3
              exact ⟨hwl, hbl, hdisj⟩
            | some j =>
              simp [process_access_lists, hfb, hfw] at ho
              obtain ⟨-, h2, h3, -⟩ := ho
              subst h2; subst h3
              exact ⟨hwl, nodup_macs_eraseIdx hbl,
                fun m hm hc => hdisj m hm (mem_macs_eraseIdx hc)⟩
          | none =>
            have hmacwl : mac ∉ macs wl :=
              (not_mem_macs_iff mac wl).mpr ((macFindIndex_eq_none_iff mac wl).mp hfw)
            cases hfb : macFindIndex mac bl with
            | some j =>
              obtain ⟨e, he, hemac⟩ := macFindIndex_some_getElem mac bl j hfb
              simp [process_access_lists, hfb, hfw, he] at ho
              obtain ⟨-, h2, h3, -⟩ := ho
              subst h2; subst h3
              refine ⟨nodup_macs_append hwl (hemac ▸ hmacwl),
                nodup_macs_eraseIdx hbl, ?_⟩
              intro m hm hc
              rcases mem_macs_append hm with hm | hm
              · exact hdisj m hm (mem_macs_eraseIdx hc)
              · rw [hm, hemac] at hc
                exact not_mem_macs_eraseIdx_found hbl hfb hc
            | none =>
              have hmacbl : mac ∉ macs bl :=
                (not_mem_macs_iff mac bl).mpr ((macFindIndex_eq_none_iff mac bl).mp hfb)
              simp [process_access_lists, hfb, hfw] at ho
              obtain ⟨-, h2, h3, -⟩ := ho
              subst h2; subst h3
              refine ⟨nodup_macs_append hwl
                (by rw [get_access_list_item_mac]; exact hmacwl), hbl, ?_⟩
              intro m hm hc
              rcases mem_macs_append hm with hm | hm
              · exact hdisj m hm hc
              · rw [hm, get_access_list_item_mac mac name known] at hc
                exact hmacbl hc

/-- Witness for C5 amended: moving the sole blacklist entry to an empty
whitelist keeps each list duplicate-free and the two lists disjoint. -/
theorem C5_amended_invariant_preserved_witness :
    (macs [⟨"AA:BB:CC:DD:EE:FF", "phone"⟩]).Nodup ∧ (macs ([] : List AccessListEntry)).Nodup ∧
    ∀ m, m ∈ macs [⟨"AA:BB:CC:DD:EE:FF", "phone"⟩] → m ∉ macs ([] : List AccessListEntry) :=
  C5_amended_invariant_preserved (.bool true) "id" "2.4GHz" 1 [] [⟨"AA:BB:CC:DD:EE:FF", "phone"⟩]
    (.valid .WHITELIST) (.valid .ADD) "AA:BB:CC:DD:EE:FF" none []
    (by simp [macs]) (by simp [macs]) (by simp [macs])
    (some true) 0 [⟨"AA:BB:CC:DD:EE:FF", "phone"⟩] [] rfl

/-- C6: with both lists present, calling the reconciler with a mode outside
{WHITELIST, BLACKLIST} or an action outside {ADD, REMOVE} raises (an
`Except.error`, the embedding of `InvalidActionError`) instead of returning a
no-op outcome or the failure triple. -/
theorem C6_invalid_argument_raises
    (en : PyValue) (id freq : String) (pol : Int)
    (wl bl : List AccessListEntry) (marg : FilterModeArg) (aarg : FilterActionArg)
    (mac : String) (name : Option String) (known : List HuaweiClientDevice)
    (hinv : (∃ t, marg = .invalid t) ∨ (∃ t, aarg = .invalid t)) :
    ∃ e, process_access_lists ⟨en, some wl, some bl, id, pol, freq⟩ marg aarg mac
      name known = .error e := by
  rcases hinv with ⟨t, rfl⟩ | ⟨t, rfl⟩
  · cases aarg with
    | invalid s => exact ⟨"Unknown FilterAction", by simp [process_access_lists]⟩
    | valid a =>
      cases a with
      | ADD => exact ⟨"Unknown FilterMode", by simp [process_access_lists]⟩
      | REMOVE => exact ⟨"Unknown FilterMode", by simp [process_access_lists]⟩
  · exact ⟨"Unknown FilterAction", by simp [process_access_lists]⟩

/-- Witness for C6: an out-of-enumeration mode value raises on a state with both
lists present. -/
theorem C6_invalid_argument_raises_witness :
    ∃ e, process_access_lists ⟨.bool true, some [], some [], "id", 1, "2.4GHz"⟩
      (.invalid "bogus") (.valid .ADD) "AA" none [] = .error e :=
  C6_invalid_argument_raises (.bool true) "id" "2.4GHz" 1 [] [] (.invalid "bogus")
    (.valid .ADD) "AA" none [] (Or.inl ⟨"bogus", rfl⟩)

/-- C7: `set_wlan_filter_mode` is a no-op (true, no write) exactly when the 5GHz
band's current `MacFilterPolicy` equals the desired mode's value — the 2.4GHz
policy is not consulted — and otherwise issues one combined write setting both
bands' policy to the desired value while copying every other field verbatim. -/
theorem C7_set_filter_mode (v : FilterMode) (s2 s5 : BandState) :
    (s5.MacFilterPolicy = v.value →
      set_wlan_filter_mode v (some s2) (some s5) = (true, [])) ∧
    (s5.MacFilterPolicy ≠ v.value →
      set_wlan_filter_mode v (some s2) (some s5) =
        (true, [⟨⟨s2.MACAddressControlEnabled, s2.WMACAddresses, s2.ID, v.value,
            s2.BMACAddresses, s2.FrequencyBand⟩,
          ⟨s5.MACAddressControlEnabled, s5.WMACAddresses, s5.ID, v.value,
            s5.BMACAddresses, s5.FrequencyBand⟩⟩])) ∧
    ((set_wlan_filter_mode v (some s2) (some s5)).2 = [] ↔
      s5.MacFilterPolicy = v.value) := by
  refine ⟨?_, ?_, ?_⟩
  · intro h
    simp [set_wlan_filter_mode, h]
  · intro h
    simp [set_wlan_filter_mode, h]
  · by_cases h : s5.MacFilterPolicy = v.value <;> simp [set_wlan_filter_mode, h]

/-- Witness for C7: with the 5GHz policy already at the desired value the call
returns true and writes nothing, whatever the 2.4GHz policy is. -/
theorem C7_set_filter_mode_witness :
    set_wlan_filter_mode .WHITELIST
        (some ⟨.bool true, some [], some [], "id2", 0, "2.4GHz"⟩)
        (some ⟨.bool true, some [], some [], "id5", 1, "5GHz"⟩) = (true, []) :=
  (C7_set_filter_mode .WHITELIST ⟨.bool true, some [], some [], "id2", 0, "2.4GHz"⟩
    ⟨.bool true, some [], some [], "id5", 1, "5GHz"⟩).1 rfl

/-- C8: `_set_wlan_filter_enabled` computes the current combined state as "both
bands' enabled flags are the boolean true"; it is a no-op (true, no write) when
that equals the desired value and otherwise issues one combined write setting
both bands' enabled flag to the desired value while copying every other field
verbatim. -/
theorem C8_set_filter_enabled (value : Bool) (s2 s5 : BandState) :
    (∀ s : BandState, verify_state s = true ↔
      s.MACAddressControlEnabled = .bool true) ∧
    ((verify_state s2 && verify_state s5) = value →
      set_wlan_filter_enabled value (some s2) (some s5) = (true, [])) ∧
    ((verify_state s2 && verify_state s5) ≠ value →
      set_wlan_filter_enabled value (some s2) (some s5) =
        (true, [⟨⟨.bool value, s2.WMACAddresses, s2.ID, s2.MacFilterPolicy,
            s2.BMACAddresses, s2.FrequencyBand⟩,
          ⟨.bool value, s5.WMACAddresses, s5.ID, s5.MacFilterPolicy,
            s5.BMACAddresses, s5.FrequencyBand⟩⟩])) ∧
    ((set_wlan_filter_enabled value (some s2) (some s5)).2 = [] ↔
      (verify_state s2 && verify_state s5) = value) := by
  refine ⟨?_, ?_, ?_, ?_⟩
  · intro s
    unfold verify_state
    cases hv : s.MACAddressControlEnabled <;> simp
  · intro h
    simp only [verify_state] at h
    simp [set_wlan_filter_enabled, h]
  · intro h
    simp only [verify_state] at h
    simp [set_wlan_filter_enabled, h]
  · by_cases h : (verify_state s2 && verify_state s5) = value
    all_goals simp only [verify_state] at h
    all_goals simp [set_wlan_filter_enabled, h]
    all_goals simp only [verify_state]
    exacts [h, h]

/-- Witness for C8: one band enabled and one disabled give a combined state of
false, so asking for false is a no-op with zero writes. -/
theorem C8_set_filter_enabled_witness :
    set_wlan_filter_enabled false
        (some ⟨.bool true, some [], some [], "id2", 1, "2.4GHz"⟩)
        (some ⟨.bool false, some [], some [], "id5", 1, "5GHz"⟩) = (true, []) :=
  (C8_set_filter_enabled false ⟨.bool true, some [], some [], "id2", 1, "2.4GHz"⟩
    ⟨.bool false, some [], some [], "id5", 1, "5GHz"⟩).2.1 rfl

/-- C9: the known-devices fetch is performed exactly when an ADD must create a
new entry (target MAC found in neither list) and the caller supplied no usable
name — never on REMOVE, never when the caller supplied a name, and never when
an existing entry is moved from the other list.  When it is performed, the new
entry's name is the matching device's reported name, or a generated placeholder
containing the MAC when no known device matches. -/
theorem C9_lazy_name_resolution
    (en : PyValue) (id freq : String) (pol : Int)
    (wl bl : List AccessListEntry) (mac : String) (name : Option String)
    (known : List HuaweiClientDevice) :
    (∀ (marg : FilterModeArg) (aarg : FilterActionArg) (na : Option Bool)
        (owl obl : Option (List AccessListEntry)) (k : Nat),
      process_access_lists ⟨en, some wl, some bl, id, pol, freq⟩ marg aarg mac name
        known = .ok ⟨na, owl, obl, k⟩ →
      k ≤ 1 ∧
      (k = 1 ↔ (aarg = .valid .ADD ∧ (∃ m, marg = .valid m) ∧
        macFindIndex mac wl = none ∧ macFindIndex mac bl = none ∧
        pyTruthy name = false))) ∧
    (pyTruthy name = false →
      ∀ d, known.find? (fun dev => dev.mac_address = mac) = some d →
        get_access_list_item mac name known = ⟨mac, d.actual_name⟩) ∧
    (pyTruthy name = false →
      known.find? (fun dev => dev.mac_address = mac) = none →
        get_access_list_item mac name known = ⟨mac, "Unknown device " ++ mac⟩) := by
  refine ⟨?_, ?_, ?_⟩
  · intro marg aarg na owl obl k ho
    cases aarg with
    | invalid tag => simp [process_access_lists] at ho
    | valid a =>
      cases a with
      | REMOVE =>
        cases marg with
        | invalid tag => simp [process_access_lists] at ho
        | valid m =>
          cases m with
          | BLACKLIST =>
            cases hfb : macFindIndex mac bl with
            | none =>
              simp [process_access_lists, hfb] at ho
              obtain ⟨-, -, -, hk⟩ := ho
              subst hk
              simp
            | some i =>
              simp [process_access_lists, hfb] at ho
              obtain ⟨-, -, -, hk⟩ := ho
              subst hk
              simp
          | WHITELIST =>
            cases hfw : macFindIndex mac wl with
            | none =>
              simp [process_access_lists, hfw] at ho
              obtain ⟨-, -, -, hk⟩ := ho
              subst hk
              simp
            | some i =>
              simp [process_access_lists, hfw] at ho
              obtain ⟨-, -, -, hk⟩ := ho
              subst hk
              simp
      | ADD =>
        cases marg with
        | invalid tag => simp [process_access_lists] at ho
        | valid m =>
          cases m with
          | BLACKLIST =>
            cases hfb : macFindIndex mac bl with
            | some j =>
              cases hfw : macFindIndex mac wl with
              | none =>
                simp [process_access_lists, hfb, hfw] at ho
                obtain ⟨-, -, -, hk⟩ := ho
                subst hk
                simp [hfb]
              | some i =>
                simp [process_access_lists, hfb, hfw] at ho
                obtain ⟨-, -, -, hk⟩ := ho
                subst hk
                simp [hfb]
            | none =>
              cases hfw : macFindIndex mac wl with
              | some i =>
                obtain ⟨e, he, -⟩ := macFindIndex_some_getElem mac wl i hfw
                simp [process_access_lists, hfb, hfw, he] at ho
                obtain ⟨-, -, -, hk⟩ := ho
                subst hk
                simp [hfw]
              | none =>
                simp [process_access_lists, hfb, hfw] at ho
                obtain ⟨-, -, -, hk⟩ := ho
                subst hk
                unfold get_access_list_item_lookups
                cases hp : pyTruthy name <;> simp [hp, hfw, hfb]
          | WHITELIST =>
            cases hfw : macFindIndex mac wl with
            | some i =>
              cases hfb : macFindIndex mac bl with
              | none =>
                simp [process_access_lists, hfb, hfw] at ho
                obtain ⟨-, -, -, hk⟩ := ho
                subst hk
                simp [hfw]
              | some j =>
                simp [process_access_lists, hfb, hfw] at ho
                obtain ⟨-, -, -, hk⟩ := ho
                subst hk
                simp [hfw]
            | none =>
              cases hfb : macFindIndex mac bl with
              | some j =>
                obtain ⟨e, he, -⟩ := macFindIndex_some_getElem mac bl j hfb
                simp [process_access_lists, hfb, hfw, he] at ho
                obtain ⟨-, -, -, hk⟩ := ho
                subst hk
                simp [hfb]
              | none =>
                simp [process_access_lists, hfb, hfw] at ho
                obtain ⟨-, -, -, hk⟩ := ho
                subst hk
                unfold get_access_list_item_lookups
                cases hp : pyTruthy name <;> simp [hp, hfw, hfb]
  · intro hp d hd
    simp [get_access_list_item, hp, hd]
  · intro hp hd
    simp [get_access_list_item, hp, hd]

/-- Witness for C9: with no name supplied and the MAC unknown to the
collaborator, a creating ADD performs exactly one known-devices fetch, and the
resolver yields the placeholder label containing the MAC. -/
theorem C9_lazy_name_resolution_witness :
    (0 ≤ 1 ∧ ((0 : Nat) = 1 ↔ (FilterActionArg.valid .REMOVE = .valid .ADD ∧
      (∃ m, FilterModeArg.valid FilterMode.WHITELIST = .valid m) ∧
      macFindIndex "AA" [⟨"AA", "x"⟩] = none ∧
      macFindIndex "AA" ([] : List AccessListEntry) = none ∧
      pyTruthy none = false))) ∧
    get_access_list_item "AA" none [] = ⟨"AA", "Unknown device AA"⟩ :=
  ⟨(C9_lazy_name_resolution (.bool true) "id" "2.4GHz" 1 [⟨"AA", "x"⟩] [] "AA" none []).1
      (.valid .WHITELIST) (.valid .REMOVE) (some true) (some []) (some []) 0 rfl,
    (C9_lazy_name_resolution (.bool true) "id" "2.4GHz" 1 [⟨"AA", "x"⟩] [] "AA" none []).2.2
      rfl rfl⟩

/-- C10: when the target MAC sits in both lists and an ADD is requested, the
reconciler reports `need_action = false` (already in the target list) yet has
already popped the MAC's entry from the other list, so the returned other list
differs from the input — the reported no-op is not list-preserving. -/
theorem C10_both_present_mutates_other
    (en : PyValue) (id freq : String) (pol : Int)
    (wl bl : List AccessListEntry) (mac : String) (name : Option String)
    (known : List HuaweiClientDevice) (i j : Nat)
    (hw : macFindIndex mac wl = some i) (hb : macFindIndex mac bl = some j) :
    (process_access_lists ⟨en, some wl, some bl, id, pol, freq⟩
        (.valid .WHITELIST) (.valid .ADD) mac name known =
      .ok ⟨some false, some wl, some (bl.eraseIdx j), 0⟩ ∧ bl.eraseIdx j ≠ bl) ∧
    (process_access_lists ⟨en, some wl, some bl, id, pol, freq⟩
        (.valid .BLACKLIST) (.valid .ADD) mac name known =
      .ok ⟨some false, some (wl.eraseIdx i), some bl, 0⟩ ∧ wl.eraseIdx i ≠ wl) := by
  have hi := macFindIndex_some_lt mac wl i hw
  have hj := macFindIndex_some_lt mac bl j hb
  refine ⟨⟨?_, ?_⟩, ?_, ?_⟩
  · simp [process_access_lists, hw, hb]
  · intro hc
    have hlen := List.length_eraseIdx_add_one hj
    rw [hc] at hlen
    omega
  · simp [process_access_lists, hw, hb]
  · intro hc
    have hlen := List.length_eraseIdx_add_one hi
    rw [hc] at hlen
    omega

/-- Witness for C10: with "AA" in both singleton lists, an ADD under WHITELIST
reports no action needed while returning an emptied blacklist. -/
theorem C10_both_present_mutates_other_witness :
    process_access_lists
        ⟨.bool true, some [⟨"AA", "x"⟩], some [⟨"AA", "y"⟩], "id", 1, "2.4GHz"⟩
        (.valid .WHITELIST) (.valid .ADD) "AA" none [] =
      .ok ⟨some false, some [⟨"AA", "x"⟩],
        some (([⟨"AA", "y"⟩] : List AccessListEntry).eraseIdx 0), 0⟩ ∧
    ([⟨"AA", "y"⟩] : List AccessListEntry).eraseIdx 0 ≠ [⟨"AA", "y"⟩] :=
  (C10_both_present_mutates_other (.bool true) "id" "2.4GHz" 1 [⟨"AA", "x"⟩]
    [⟨"AA", "y"⟩] "AA" none [] 0 0 (by decide) (by decide)).1
